import Mathlib

/-!
Verification of cmd/gostatsd/main.go (startup wiring of the gostatsd daemon)
and of the spec-level aggregation data model.

The file shallowly embeds the functions of src/cmd/gostatsd/main.go:
external collaborators (viper configuration lookups, pflag parsing,
backends.InitBackend, statsd.NewCloudHandlerFactoryFromViper,
CloudHandlerFactory.InitCloudProvider, strconv.ParseFloat, Server.Run,
OS signal delivery) are modelled as explicit inputs, and each Go function
becomes a Lean function over those inputs.  Go errors are modelled as
String; a Go call returning (T, error) becomes Except String T; a Go call
returning only error becomes Option String (some = non-nil error).
Go float64 configuration values are modelled as exact rationals.
-/

namespace Gostatsd

/-- Returns true exactly when an Except value is in its error case
(a Go call returned a non-nil error). -/
def exceptIsError {ε α : Type} : Except ε α → Bool
  | .error _ => true
  | .ok _ => false

/-- Extracts the success value of an Except, if any. -/
def exceptToOption {ε α : Type} : Except ε α → Option α
  | .error _ => none
  | .ok a => some a

@[simp] theorem exceptIsError_error {ε α : Type} (e : ε) :
    exceptIsError (Except.error e : Except ε α) = true := rfl

@[simp] theorem exceptIsError_ok {ε α : Type} (a : α) :
    exceptIsError (Except.ok a : Except ε α) = false := rfl

@[simp] theorem exceptToOption_error {ε α : Type} (e : ε) :
    exceptToOption (Except.error e : Except ε α) = none := rfl

@[simp] theorem exceptToOption_ok {ε α : Type} (a : α) :
    exceptToOption (Except.ok a : Except ε α) = some a := rfl

/-- The fields of statsd.Server that main.go's wiring is observed on in this
development: the backend list, the optional cloud handler factory, the parsed
percentile thresholds and the bad-line rate limit (main.go lines 117-150).
The remaining fields of the Go struct are plain copies of configuration
values and are omitted.  B is the backend type (gostatsd.Backend), CF the
cloud handler factory type. -/
structure Server (B CF : Type) where
  Backends : List B
  CloudHandlerFactory : Option CF
  PercentThreshold : List ℚ
  BadLineRateLimitPerSecond : ℚ
deriving DecidableEq

/-- The inputs of constructServer (main.go lines 84-151): every external
call it makes is modelled by a field recording that call's outcome.
cloudFactory is the result of statsd.NewCloudHandlerFactoryFromViper (a nil
factory with nil error is Except.ok none); initCloudProvider models
cloud.InitCloudProvider (some e = non-nil error); initBackend models
backends.InitBackend; parseFloat models strconv.ParseFloat;
badLinesPerMinute is v.GetFloat64(ParamBadLinesPerMinute). -/
structure Env (B CF : Type) where
  cloudFactory : Except String (Option CF)
  initCloudProvider : CF → Option String
  backendNames : List String
  initBackend : String → Except String B
  percentThresholdStrings : List String
  parseFloat : String → Except String ℚ
  badLinesPerMinute : ℚ

/-- The backend-initialization loop of constructServer (main.go lines
102-110): initializes each configured backend name in order, aborting with
the first non-nil error. -/
def initBackends {B : Type} (f : String → Except String B) :
    List String → Except String (List B)
  | [] => Except.ok []
  | n :: rest =>
    match f n with
    | .error e => Except.error e
    | .ok b =>
      match initBackends f rest with
      | .error e => Except.error e
      | .ok bs => Except.ok (b :: bs)

/-- getPercentiles (main.go lines 153-163): parses each string with
strconv.ParseFloat, returning the first parse error, else the list of
parsed values in order. -/
def getPercentiles (parseFloat : String → Except String ℚ) :
    List String → Except String (List ℚ)
  | [] => Except.ok []
  | s :: rest =>
    match parseFloat s with
    | .error e => Except.error e
    | .ok pt =>
      match getPercentiles parseFloat rest with
      | .error e => Except.error e
      | .ok tail => Except.ok (pt :: tail)

/-- The cloud-provider initialization step of constructServer (main.go
lines 96-100): InitCloudProvider is invoked only when the factory is
non-nil; the result is its error, if any. -/
def cloudInitError {CF : Type} (cloud : Option CF)
    (icp : CF → Option String) : Option String :=
  match cloud with
  | none => none
  | some cf => icp cf

/-- constructServer (main.go lines 84-151): builds the cloud handler
factory, initializes it when non-nil, initializes every configured backend
in order, parses the percentile thresholds, and on success returns the
Server record; the first non-nil error aborts construction. -/
def constructServer {B CF : Type} (env : Env B CF) :
    Except String (Server B CF) :=
  match env.cloudFactory with
  | .error e => Except.error e
  | .ok cloud =>
    match cloudInitError cloud env.initCloudProvider with
    | some e => Except.error e
    | none =>
      match initBackends env.initBackend env.backendNames with
      | .error e => Except.error e
      | .ok backendsList =>
        match getPercentiles env.parseFloat env.percentThresholdStrings with
        | .error e => Except.error e
        | .ok pt =>
          Except.ok
            { Backends := backendsList
              CloudHandlerFactory := cloud
              PercentThreshold := pt
              BadLineRateLimitPerSecond := env.badLinesPerMinute / 60 }

/-- The outcome of Server.Run (main.go line 78): nil error, the sentinel
context.Canceled, or any other non-nil error. -/
inductive RunResult where
  | ok
  | canceled
  | failed (e : String)
deriving DecidableEq

/-- The error wrapping on main.go line 79: fmt.Errorf("server error: %v", err). -/
def serverErrorWrap (e : String) : String := "server error: " ++ e

/-- run (main.go lines 60-82), with Server.Run modelled by the function
serverRun.  The first component is run's returned error (none = nil): a
constructServer error is returned as-is; a Server.Run error other than
context.Canceled is returned wrapped; nil and context.Canceled yield nil.
The second component records whether Server.Run was invoked. -/
def runOutcome {B CF : Type} (env : Env B CF)
    (serverRun : Server B CF → RunResult) : Option String × Bool :=
  match constructServer env with
  | .error e => (some e, false)
  | .ok s =>
    match serverRun s with
    | .ok => (none, true)
    | .canceled => (none, true)
    | .failed e => (some (serverErrorWrap e), true)

/-- The signals registered by cancelOnInterrupt (main.go line 168):
os.Interrupt and syscall.SIGTERM. -/
inductive Sig where
  | interrupt
  | sigterm
deriving DecidableEq

/-- The two events the select in cancelOnInterrupt (main.go lines 170-174)
can wake on: the context becoming done, or a registered signal arriving
on the notification channel. -/
inductive InterruptEvent where
  | ctxDone
  | signal (s : Sig)
deriving DecidableEq

/-- The body of cancelOnInterrupt's goroutine (main.go lines 169-175):
whether the cancel function f is invoked for a given wake-up event.  It is
invoked exactly when a registered signal arrives first. -/
def cancelOnInterruptFires : InterruptEvent → Bool
  | .ctxDone => false
  | .signal _ => true

/-- An error from the configuration phase: pflag.ErrHelp is a
distinguished sentinel (main.go line 46 compares against it); every other
error carries its message. -/
inductive ConfigErr where
  | errHelp
  | other (msg : String)
deriving DecidableEq

/-- The inputs of setupConfiguration (main.go lines 178-214): parseResult
is the outcome of cmd.Parse(os.Args[1:]) (some = non-nil error, which may
be pflag.ErrHelp); configPath is v.GetString(ParamConfigPath) after
parsing; readResult is the outcome of v.ReadInConfig() when invoked;
version is the parsed value of the version flag. -/
structure SetupEnv where
  parseResult : Option ConfigErr
  configPath : String
  readResult : Option ConfigErr
  version : Bool

/-- setupConfiguration (main.go lines 178-214): parses the flags, and when
the config-path parameter is non-empty sets and reads the configuration
file; the first non-nil error is returned.  The first component is the
result (on success, the version flag stands in for the returned viper
instance); the second records whether ReadInConfig was invoked, i.e.
whether a configuration file was read. -/
def setupConfiguration (env : SetupEnv) : Except ConfigErr Bool × Bool :=
  match env.parseResult with
  | some e => (Except.error e, false)
  | none =>
    if env.configPath ≠ "" then
      match env.readResult with
      | some e => (Except.error e, true)
      | none => (Except.ok env.version, true)
    else
      (Except.ok env.version, false)

/-- How main (main.go lines 42-58) terminates: a quiet return on
pflag.ErrHelp, logrus.Fatalf on any other configuration error, a quiet
return after printing the version, logrus.Fatalf when run returns a
non-nil error, or a normal exit. -/
inductive MainOutcome where
  | helpExit
  | fatalConfig (e : ConfigErr)
  | versionExit
  | fatalRun (msg : String)
  | normalExit
deriving DecidableEq

/-- main (main.go lines 42-58), with the eventual result of run modelled
by runResult (none = nil error): a setupConfiguration error returns
quietly when it is pflag.ErrHelp and logs fatally otherwise; then the
version flag short-circuits; otherwise run's error, if any, is logged
fatally. -/
def mainOutcome (env : SetupEnv) (runResult : Option String) : MainOutcome :=
  match (setupConfiguration env).1 with
  | .error e => if e = ConfigErr.errHelp then .helpExit else .fatalConfig e
  | .ok version =>
    if version then .versionExit
    else
      match runResult with
      | some msg => .fatalRun msg
      | none => .normalExit

/-! ### Spec-modelled aggregation data model

The aggregation pipeline (pkg/statsd, the gostatsd package) is not under
src/; the definitions below are modelled from the spec's data model
(spec sections 3 and 8). -/

/-- Modelled from the spec: the metric kinds of the statsd protocol
(counters, gauges, timers, sets); pkg/statsd's metric type enumeration is
not under src/. -/
inductive MetricKind where
  | counter
  | gauge
  | timer
  | set
deriving DecidableEq

/-- Modelled from the spec: the canonical sorted form of a tag-set
("Tag-set is an unordered set of key:value strings; two identities are
equal iff name, kind, and tag-set (as a canonical sorted form) match");
the canonicalization in pkg/statsd is not under src/.  Duplicates are
removed and the remaining tags sorted. -/
def canonicalTags (tags : List String) : List String :=
  List.insertionSort (· ≤ ·) tags.dedup

/-- Modelled from the spec: MetricIdentity is (name, tag-set, metric-kind)
with the tag-set held in canonical sorted form; pkg/statsd's aggregation
key is not under src/. -/
structure MetricIdentity where
  name : String
  kind : MetricKind
  tags : List String
deriving DecidableEq

/-- Modelled from the spec: a Metric carries its name, kind and tags in
whatever order they were inserted; pkg/statsd's Metric struct is not under
src/.  Only the identity-forming fields are needed here. -/
structure Metric where
  name : String
  kind : MetricKind
  tags : List String

/-- Modelled from the spec: the MetricIdentity of a Metric, with the
tag-set canonicalized. -/
def Metric.identity (m : Metric) : MetricIdentity :=
  { name := m.name, kind := m.kind, tags := canonicalTags m.tags }

/-- A numeric code for a metric kind, an input to the identity hash. -/
def kindCode : MetricKind → ℕ
  | .counter => 0
  | .gauge => 1
  | .timer => 2
  | .set => 3

/-- One step of a 32-bit polynomial string hash, with overflow taken
modulo 2^32. -/
def strHashStep (h : ℕ) (c : Char) : ℕ :=
  (h * 31 + c.toNat) % 4294967296

/-- Folds a string into a running 32-bit hash. -/
def strHash (h : ℕ) (s : String) : ℕ :=
  s.toList.foldl strHashStep h

/-- Modelled from the spec: a deterministic hash of a MetricIdentity
("cheap to hash and compare"); pkg/statsd's identity hash is not under
src/.  Any pure function of the identity satisfies the spec's invariant. -/
def hashIdentity (id : MetricIdentity) : ℕ :=
  id.tags.foldl strHash (strHash (kindCode id.kind + 17) id.name)

/-- Modelled from the spec: shard assignment is "a pure deterministic
function of the identity, recomputed identically by every worker";
pkg/statsd's dispatch is not under src/.  The identity hash modulo the
worker count picks the shard. -/
def shardOf (numWorkers : ℕ) (id : MetricIdentity) : ℕ :=
  hashIdentity id % numWorkers

/-- Modelled from the spec: AggregatedCounter is a "running sum since last
flush, plus a monotonic total-since-start; reset to zero after each flush";
pkg/statsd's counter aggregation is not under src/.  Values are modelled
as unbounded integers. -/
structure AggregatedCounter where
  value : ℤ
  total : ℤ
deriving DecidableEq

/-- Modelled from the spec: the counter state before any increment. -/
def initialCounter : AggregatedCounter := { value := 0, total := 0 }

/-- Modelled from the spec: folding one counter increment into the
aggregate ("sum for counters"): both the running sum and the
total-since-start advance by the increment. -/
def foldIncrement (c : AggregatedCounter) (inc : ℤ) : AggregatedCounter :=
  { value := c.value + inc, total := c.total + inc }

/-- Modelled from the spec: folding a whole flush window of increments in
order. -/
def foldWindow (c : AggregatedCounter) (incs : List ℤ) : AggregatedCounter :=
  incs.foldl foldIncrement c

/-- Modelled from the spec: the flush of a counter emits the running sum
as the delta and resets it to zero; the total-since-start is read just
before the reset and persists. -/
def flushCounter (c : AggregatedCounter) : ℤ × AggregatedCounter :=
  (c.value, { value := 0, total := c.total })

/-- Modelled from the spec: a run of consecutive flush windows for one
identity, each a list of increments folded in order and ended by a flush;
returns the list of emitted deltas and the final counter state. -/
def runWindows : AggregatedCounter → List (List ℤ) → List ℤ × AggregatedCounter
  | c, [] => ([], c)
  | c, w :: ws =>
    let flushed := flushCounter (foldWindow c w)
    let rest := runWindows flushed.2 ws
    (flushed.1 :: rest.1, rest.2)

/-- The error produced by the first backend name (in configuration order)
whose initialization fails, if any. -/
def firstBackendError {B : Type} (f : String → Except String B) :
    List String → Option String
  | [] => none
  | n :: rest =>
    match f n with
    | .error e => some e
    | .ok _ => firstBackendError f rest

/-- The parse error of the first percentile string (in order) that fails
to parse, if any. -/
def firstParseError (parseFloat : String → Except String ℚ) :
    List String → Option String
  | [] => none
  | s :: rest =>
    match parseFloat s with
    | .error e => some e
    | .ok _ => firstParseError parseFloat rest

theorem initBackends_error_iff_first {B : Type} (f : String → Except String B) :
    ∀ (l : List String) (e : String),
      initBackends f l = Except.error e ↔ firstBackendError f l = some e := by
  intro l
  induction l with
  | nil => intro e; simp [initBackends, firstBackendError]
  | cons n rest ih =>
    intro e
    cases hf : f n with
    | error e' => simp [initBackends, firstBackendError, hf]
    | ok b =>
      cases hr : initBackends f rest with
      | error e' =>
        simp [initBackends, firstBackendError, hf, hr, ← ih]
      | ok bs =>
        simp [initBackends, firstBackendError, hf, hr, ← ih]

theorem initBackends_ok_spec {B : Type} (f : String → Except String B) :
    ∀ (l : List String) (bs : List B), initBackends f l = Except.ok bs →
      bs.length = l.length ∧
      ∀ i : ℕ, bs[i]? = (l[i]?).bind fun n => exceptToOption (f n) := by
  intro l
  induction l with
  | nil =>
    intro bs h
    simp only [initBackends] at h
    cases h
    exact ⟨rfl, fun i => by simp⟩
  | cons n rest ih =>
    intro bs h
    simp only [initBackends] at h
    cases hf : f n with
    | error e' => rw [hf] at h; exact Except.noConfusion h
    | ok b =>
      rw [hf] at h
      cases hr : initBackends f rest with
      | error e' => rw [hr] at h; exact Except.noConfusion h
      | ok bs' =>
        rw [hr] at h
        cases h
        obtain ⟨hlen, helem⟩ := ih bs' hr
        refine ⟨by simp [hlen], fun i => ?_⟩
        cases i with
        | zero => simp [hf]
        | succ j => simp [helem j]

theorem initBackends_ok_of_all {B : Type} (f : String → Except String B) :
    ∀ l : List String, (∀ n ∈ l, exceptIsError (f n) = false) →
      ∃ bs, initBackends f l = Except.ok bs := by
  intro l
  induction l with
  | nil => intro _; exact ⟨[], rfl⟩
  | cons n rest ih =>
    intro h
    cases hf : f n with
    | error e =>
      have := h n (by simp)
      rw [hf] at this
      exact absurd this (by simp)
    | ok b =>
      obtain ⟨bs, hbs⟩ := ih fun m hm => h m (by simp [hm])
      exact ⟨b :: bs, by simp [initBackends, hf, hbs]⟩

theorem initBackends_error_of_mem {B : Type} (f : String → Except String B) :
    ∀ l : List String, (∃ n ∈ l, exceptIsError (f n) = true) →
      ∃ e, initBackends f l = Except.error e := by
  intro l
  induction l with
  | nil => rintro ⟨n, hn, -⟩; exact absurd hn (List.not_mem_nil n)
  | cons m rest ih =>
    rintro ⟨n, hn, herr⟩
    cases hf : f m with
    | error e => exact ⟨e, by simp [initBackends, hf]⟩
    | ok b =>
      rcases List.mem_cons.mp hn with heq | hmem
      · subst heq; rw [hf] at herr; exact absurd herr (by simp)
      · obtain ⟨e, he⟩ := ih ⟨n, hmem, herr⟩
        exact ⟨e, by simp [initBackends, hf, he]⟩

theorem getPercentiles_error_iff_first (parseFloat : String → Except String ℚ) :
    ∀ (l : List String) (e : String),
      getPercentiles parseFloat l = Except.error e ↔
        firstParseError parseFloat l = some e := by
  intro l
  induction l with
  | nil => intro e; simp [getPercentiles, firstParseError]
  | cons s rest ih =>
    intro e
    cases hf : parseFloat s with
    | error e' => simp [getPercentiles, firstParseError, hf]
    | ok pt =>
      cases hr : getPercentiles parseFloat rest with
      | error e' => simp [getPercentiles, firstParseError, hf, hr, ← ih]
      | ok tail => simp [getPercentiles, firstParseError, hf, hr, ← ih]

theorem getPercentiles_ok_spec (parseFloat : String → Except String ℚ) :
    ∀ (l : List String) (pts : List ℚ),
      getPercentiles parseFloat l = Except.ok pts →
      pts.length = l.length ∧
      ∀ i : ℕ, pts[i]? = (l[i]?).bind fun s => exceptToOption (parseFloat s) := by
  intro l
  induction l with
  | nil =>
    intro pts h
    simp only [getPercentiles] at h
    cases h
    exact ⟨rfl, fun i => by simp⟩
  | cons s rest ih =>
    intro pts h
    simp only [getPercentiles] at h
    cases hf : parseFloat s with
    | error e' => rw [hf] at h; exact Except.noConfusion h
    | ok pt =>
      rw [hf] at h
      cases hr : getPercentiles parseFloat rest with
      | error e' => rw [hr] at h; exact Except.noConfusion h
      | ok tail =>
        rw [hr] at h
        cases h
        obtain ⟨hlen, helem⟩ := ih tail hr
        refine ⟨by simp [hlen], fun i => ?_⟩
        cases i with
        | zero => simp [hf]
        | succ j => simp [helem j]

theorem getPercentiles_ok_of_all (parseFloat : String → Except String ℚ) :
    ∀ l : List String, (∀ s ∈ l, exceptIsError (parseFloat s) = false) →
      ∃ pts, getPercentiles parseFloat l = Except.ok pts := by
  intro l
  induction l with
  | nil => intro _; exact ⟨[], rfl⟩
  | cons s rest ih =>
    intro h
    cases hf : parseFloat s with
    | error e =>
      have := h s (by simp)
      rw [hf] at this
      exact absurd this (by simp)
    | ok pt =>
      obtain ⟨pts, hpts⟩ := ih fun m hm => h m (by simp [hm])
      exact ⟨pt :: pts, by simp [getPercentiles, hf, hpts]⟩

theorem getPercentiles_error_of_mem (parseFloat : String → Except String ℚ) :
    ∀ l : List String, (∃ s ∈ l, exceptIsError (parseFloat s) = true) →
      ∃ e, getPercentiles parseFloat l = Except.error e := by
  intro l
  induction l with
  | nil => rintro ⟨s, hs, -⟩; exact absurd hs (List.not_mem_nil s)
  | cons x rest ih =>
    rintro ⟨s, hs, herr⟩
    cases hf : parseFloat x with
    | error e => exact ⟨e, by simp [getPercentiles, hf]⟩
    | ok pt =>
      rcases List.mem_cons.mp hs with heq | hmem
      · subst heq; rw [hf] at herr; exact absurd herr (by simp)
      · obtain ⟨e, he⟩ := ih ⟨s, hmem, herr⟩
        exact ⟨e, by simp [getPercentiles, hf, he]⟩

theorem constructServer_eq_ok {B CF : Type} {env : Env B CF}
    {cloud : Option CF} {bs : List B} {pt : List ℚ}
    (h1 : env.cloudFactory = Except.ok cloud)
    (h2 : cloudInitError cloud env.initCloudProvider = none)
    (h3 : initBackends env.initBackend env.backendNames = Except.ok bs)
    (h4 : getPercentiles env.parseFloat env.percentThresholdStrings = Except.ok pt) :
    constructServer env = Except.ok
      { Backends := bs, CloudHandlerFactory := cloud, PercentThreshold := pt,
        BadLineRateLimitPerSecond := env.badLinesPerMinute / 60 } := by
  unfold constructServer
  rw [h1]
  simp only [h2, h3, h4]

theorem constructServer_ok_inv {B CF : Type} {env : Env B CF} {s : Server B CF}
    (h : constructServer env = Except.ok s) :
    (∃ cloud, env.cloudFactory = Except.ok cloud ∧
      cloudInitError cloud env.initCloudProvider = none ∧
      s.CloudHandlerFactory = cloud) ∧
    initBackends env.initBackend env.backendNames = Except.ok s.Backends ∧
    getPercentiles env.parseFloat env.percentThresholdStrings =
      Except.ok s.PercentThreshold ∧
    s.BadLineRateLimitPerSecond = env.badLinesPerMinute / 60 := by
  unfold constructServer at h
  cases hcf : env.cloudFactory with
  | error e => rw [hcf] at h; exact Except.noConfusion h
  | ok cloud =>
    rw [hcf] at h
    simp only at h
    cases hci : cloudInitError cloud env.initCloudProvider with
    | some e => rw [hci] at h; exact Except.noConfusion h
    | none =>
      rw [hci] at h
      simp only at h
      cases hib : initBackends env.initBackend env.backendNames with
      | error e => rw [hib] at h; exact Except.noConfusion h
      | ok bs =>
        rw [hib] at h
        simp only at h
        cases hgp : getPercentiles env.parseFloat env.percentThresholdStrings with
        | error e => rw [hgp] at h; exact Except.noConfusion h
        | ok pt =>
          rw [hgp] at h
          simp only at h
          cases h
          exact ⟨⟨cloud, rfl, hci, rfl⟩, rfl, rfl, rfl⟩

/-- A failure in the cloud-handler stage of constructServer (main.go lines
92-100): either NewCloudHandlerFactoryFromViper returned a non-nil error,
or it returned a non-nil factory whose InitCloudProvider returned a
non-nil error. -/
def cloudStageError {B CF : Type} (env : Env B CF) : Prop :=
  (∃ e, env.cloudFactory = Except.error e) ∨
  (∃ cf e, env.cloudFactory = Except.ok (some cf) ∧
    env.initCloudProvider cf = some e)

/-- Claim C1: if cloud handler factory creation or its provider
initialization fails, or any configured backend fails to initialize, or
any configured percentile threshold fails to parse, then constructServer
returns a non-nil error and run returns that error without ever calling
Server.Run. -/
theorem fatal_startup_aborts_pipeline {B CF : Type} (env : Env B CF)
    (serverRun : Server B CF → RunResult)
    (h : cloudStageError env ∨
      (∃ n ∈ env.backendNames, exceptIsError (env.initBackend n) = true) ∨
      (∃ p ∈ env.percentThresholdStrings, exceptIsError (env.parseFloat p) = true)) :
    ∃ e, constructServer env = Except.error e ∧
      runOutcome env serverRun = (some e, false) := by
  cases hcs : constructServer env with
  | error e => exact ⟨e, rfl, by simp [runOutcome, hcs]⟩
  | ok s =>
    exfalso
    obtain ⟨⟨cloud, hcf, hci, -⟩, hib, hgp, -⟩ := constructServer_ok_inv hcs
    rcases h with hc | hb | hp
    · rcases hc with ⟨e, he⟩ | ⟨cf, e, hcfe, hicp⟩
      · rw [he] at hcf; exact Except.noConfusion hcf
      · rw [hcfe] at hcf
        cases hcf
        rw [cloudInitError, hicp] at hci
        exact Option.noConfusion hci
    · obtain ⟨e, he⟩ := initBackends_error_of_mem env.initBackend env.backendNames hb
      rw [he] at hib
      exact Except.noConfusion hib
    · obtain ⟨e, he⟩ :=
        getPercentiles_error_of_mem env.parseFloat env.percentThresholdStrings hp
      rw [he] at hgp
      exact Except.noConfusion hgp

/-- A configuration environment whose single backend fails to initialize;
used to exercise the startup-abort path on concrete input. -/
def env1 : Env Nat Nat :=
  { cloudFactory := Except.ok none
    initCloudProvider := fun _ => none
    backendNames := ["x"]
    initBackend := fun _ => Except.error "boom"
    percentThresholdStrings := []
    parseFloat := fun _ => Except.error "unused"
    badLinesPerMinute := 0 }

/-- Witness for C1 at a concrete input: with a failing backend, run
returns the backend error and Server.Run is never invoked. -/
theorem fatal_startup_aborts_pipeline_witness :
    runOutcome env1 (fun _ => RunResult.ok) = (some "boom", false) := by
  obtain ⟨e, he, hr⟩ := fatal_startup_aborts_pipeline env1 (fun _ => RunResult.ok)
    (Or.inr (Or.inl ⟨"x", by simp [env1], rfl⟩))
  have hb : constructServer env1 = Except.error "boom" := rfl
  rw [he] at hb
  injection hb with hbe
  rw [← hbe]
  exact hr

/-- Claim C4: with the cloud stage and the percentile stage succeeding,
constructServer returns an error exactly when some configured backend
fails to initialize — and then the error of the first failing name in
configuration order — and otherwise returns a Server whose Backends slice
has one entry per configured name, the i-th initialized from the i-th
name. -/
theorem constructServer_backends_spec {B CF : Type} (env : Env B CF)
    (hc : ∃ cloud, env.cloudFactory = Except.ok cloud ∧
      cloudInitError cloud env.initCloudProvider = none)
    (hp : ∀ p ∈ env.percentThresholdStrings, exceptIsError (env.parseFloat p) = false) :
    (∀ e, constructServer env = Except.error e ↔
      firstBackendError env.initBackend env.backendNames = some e) ∧
    (∀ s, constructServer env = Except.ok s →
      s.Backends.length = env.backendNames.length ∧
      ∀ i : ℕ, s.Backends[i]? =
        (env.backendNames[i]?).bind fun n => exceptToOption (env.initBackend n)) := by
  obtain ⟨cloud, hcf, hci⟩ := hc
  obtain ⟨pts, hpts⟩ :=
    getPercentiles_ok_of_all env.parseFloat env.percentThresholdStrings hp
  constructor
  · intro e
    cases hib : initBackends env.initBackend env.backendNames with
    | error e' =>
      have hcs : constructServer env = Except.error e' := by
        unfold constructServer
        rw [hcf]
        simp only [hci, hib]
      rw [hcs]
      constructor
      · intro h
        injection h with h
        rw [← h, ← initBackends_error_iff_first]
        exact hib
      · intro h
        have := (initBackends_error_iff_first env.initBackend env.backendNames e).mpr h
        rw [hib] at this
        injection this with h2
        rw [h2]
    | ok bs =>
      rw [constructServer_eq_ok hcf hci hib hpts]
      constructor
      · intro h; exact Except.noConfusion h
      · intro h
        have := (initBackends_error_iff_first env.initBackend env.backendNames e).mpr h
        rw [hib] at this
        exact Except.noConfusion this
  · intro s hs
    obtain ⟨-, hib, -, -⟩ := constructServer_ok_inv hs
    exact initBackends_ok_spec env.initBackend env.backendNames s.Backends hib

/-- A configuration environment with two backends that initialize
successfully. -/
def env4 : Env Nat Nat :=
  { cloudFactory := Except.ok none
    initCloudProvider := fun _ => none
    backendNames := ["a", "b"]
    initBackend := fun n => Except.ok n.length
    percentThresholdStrings := []
    parseFloat := fun _ => Except.error "unused"
    badLinesPerMinute := 0 }

/-- The Server that constructServer builds from env4. -/
def s4 : Server Nat Nat :=
  { Backends := [1, 1]
    CloudHandlerFactory := none
    PercentThreshold := []
    BadLineRateLimitPerSecond := (0 : ℚ) / 60 }

/-- Witness for C4 at a concrete input: two configured backends yield a
Backends slice of length two. -/
theorem constructServer_backends_spec_witness :
    s4.Backends.length = env4.backendNames.length :=
  ((constructServer_backends_spec env4 ⟨none, rfl, rfl⟩
    (by intro p hp; exact absurd hp (List.not_mem_nil p))).2 s4 rfl).1

/-- Claim C5: once the Server is constructed, run returns nil exactly when
Server.Run returns nil or context.Canceled, returns the wrapped error for
every other Server.Run error, and the cancel function guarding the context
passed to Server.Run fires whenever os.Interrupt or SIGTERM is
received. -/
theorem run_cancellation_spec {B CF : Type} (env : Env B CF)
    (serverRun : Server B CF → RunResult) (s : Server B CF)
    (hs : constructServer env = Except.ok s) :
    ((runOutcome env serverRun).1 = none ↔
      serverRun s = RunResult.ok ∨ serverRun s = RunResult.canceled) ∧
    (∀ e, serverRun s = RunResult.failed e →
      (runOutcome env serverRun).1 = some (serverErrorWrap e)) ∧
    (∀ sg : Sig, cancelOnInterruptFires (InterruptEvent.signal sg) = true) := by
  have hred : runOutcome env serverRun =
      match serverRun s with
      | RunResult.ok => (none, true)
      | RunResult.canceled => (none, true)
      | RunResult.failed e => (some (serverErrorWrap e), true) := by
    unfold runOutcome
    rw [hs]
  refine ⟨?_, ?_, fun sg => rfl⟩
  · rw [hred]
    cases hrun : serverRun s <;> simp
  · intro e hrun
    rw [hred, hrun]

/-- A configuration environment on which constructServer succeeds with no
backends, no cloud factory and no percentiles. -/
def env0 : Env Nat Nat :=
  { cloudFactory := Except.ok none
    initCloudProvider := fun _ => none
    backendNames := []
    initBackend := fun _ => Except.error "unused"
    percentThresholdStrings := []
    parseFloat := fun _ => Except.error "unused"
    badLinesPerMinute := 30 }

/-- The Server that constructServer builds from env0. -/
def s0 : Server Nat Nat :=
  { Backends := []
    CloudHandlerFactory := none
    PercentThreshold := []
    BadLineRateLimitPerSecond := (30 : ℚ) / 60 }

/-- Witness for C5 at a concrete input: a Server.Run that ends with
context.Canceled makes run return nil. -/
theorem run_cancellation_spec_witness :
    (runOutcome env0 (fun _ => RunResult.canceled)).1 = none :=
  ((run_cancellation_spec env0 (fun _ => RunResult.canceled) s0 rfl).1).mpr
    (Or.inr rfl)

/-- Claim C6: every successfully constructed Server has its bad-line
diagnostic rate limit equal to the configured bad-lines-per-minute value
divided by 60 (the float64 division of main.go line 147, modelled as exact
division of rationals). -/
theorem badline_rate_limit_spec {B CF : Type} (env : Env B CF) (s : Server B CF)
    (hs : constructServer env = Except.ok s) :
    s.BadLineRateLimitPerSecond = env.badLinesPerMinute / 60 :=
  (constructServer_ok_inv hs).2.2.2

/-- Witness for C6 at a concrete input: 30 bad lines per minute yield a
per-second limit of 30 / 60. -/
theorem badline_rate_limit_spec_witness :
    s0.BadLineRateLimitPerSecond = (30 : ℚ) / 60 :=
  badline_rate_limit_spec env0 s0 rfl

/-- Claim C7: getPercentiles fails exactly when some input string fails to
parse, its error is the parse error of the first failing element in order,
and on success it returns one parsed value per input string, in order.
(On failure the Go function returns a nil slice alongside the error,
modelled by the error case carrying no list.) -/
theorem getPercentiles_spec (parseFloat : String → Except String ℚ)
    (s : List String) :
    (exceptIsError (getPercentiles parseFloat s) = true ↔
      ∃ x ∈ s, exceptIsError (parseFloat x) = true) ∧
    (∀ e, getPercentiles parseFloat s = Except.error e ↔
      firstParseError parseFloat s = some e) ∧
    (∀ l, getPercentiles parseFloat s = Except.ok l →
      l.length = s.length ∧
      ∀ i : ℕ, l[i]? = (s[i]?).bind fun x => exceptToOption (parseFloat x)) := by
  refine ⟨?_, getPercentiles_error_iff_first parseFloat s,
    getPercentiles_ok_spec parseFloat s⟩
  constructor
  · intro h
    cases hgp : getPercentiles parseFloat s with
    | error e =>
      by_contra hne
      push_neg at hne
      have : ∀ x ∈ s, exceptIsError (parseFloat x) = false := by
        intro x hx
        have := hne x hx
        cases hfx : exceptIsError (parseFloat x)
        · rfl
        · exact absurd hfx this
      obtain ⟨pts, hpts⟩ := getPercentiles_ok_of_all parseFloat s this
      rw [hgp] at hpts
      exact Except.noConfusion hpts
    | ok l => rw [hgp] at h; exact absurd h (by simp)
  · intro h
    obtain ⟨e, he⟩ := getPercentiles_error_of_mem parseFloat s h
    rw [he]
    rfl

/-- A parse function accepting only the string "90"; used to exercise
getPercentiles on concrete input. -/
def parse7 : String → Except String ℚ :=
  fun s => if s = "90" then Except.ok 90 else Except.error ("bad " ++ s)

/-- Witness for C7 at a concrete input: a list with one unparsable element
makes getPercentiles fail. -/
theorem getPercentiles_spec_witness :
    exceptIsError (getPercentiles parse7 ["90", "x"]) = true :=
  ((getPercentiles_spec parse7 ["90", "x"]).1).mpr
    ⟨"x", by simp, by simp [parse7]⟩

/-- Claim C8: when the cloud handler factory is nil with no error, and the
rest of construction succeeds, constructServer succeeds with a Server
carrying the nil CloudHandlerFactory, and the provider-initialization
function is never consulted: the result does not depend on it at all. -/
theorem constructServer_nil_cloud {B CF : Type} (env : Env B CF)
    (hcf : env.cloudFactory = Except.ok none)
    (hb : ∀ n ∈ env.backendNames, exceptIsError (env.initBackend n) = false)
    (hp : ∀ p ∈ env.percentThresholdStrings, exceptIsError (env.parseFloat p) = false) :
    (∃ s, constructServer env = Except.ok s ∧ s.CloudHandlerFactory = none) ∧
    (∀ icp, constructServer { env with initCloudProvider := icp } =
      constructServer env) := by
  obtain ⟨bs, hbs⟩ := initBackends_ok_of_all env.initBackend env.backendNames hb
  obtain ⟨pts, hpts⟩ :=
    getPercentiles_ok_of_all env.parseFloat env.percentThresholdStrings hp
  constructor
  · exact ⟨_, constructServer_eq_ok hcf rfl hbs hpts, rfl⟩
  · intro icp
    have h1 : constructServer { env with initCloudProvider := icp } =
        Except.ok
          { Backends := bs, CloudHandlerFactory := none, PercentThreshold := pts,
            BadLineRateLimitPerSecond := env.badLinesPerMinute / 60 } :=
      @constructServer_eq_ok B CF { env with initCloudProvider := icp }
        none bs pts hcf rfl hbs hpts
    rw [h1, constructServer_eq_ok hcf rfl hbs hpts]

/-- Witness for C8 at a concrete input: env0 has a nil cloud factory and
constructServer succeeds carrying it. -/
theorem constructServer_nil_cloud_witness :
    constructServer env0 = Except.ok s0 ∧ s0.CloudHandlerFactory = none := by
  obtain ⟨⟨s, hs, -⟩, -⟩ := constructServer_nil_cloud env0 rfl
    (fun n h => absurd h (List.not_mem_nil n))
    (fun p h => absurd h (List.not_mem_nil p))
  have h0 : constructServer env0 = Except.ok s0 := rfl
  exact ⟨h0, rfl⟩

/-- Claim C9: setupConfiguration reads a configuration file exactly when
flag parsing succeeds and the config-path parameter is non-empty (in
particular only when it is non-empty); it returns a non-nil error exactly
when flag parsing fails or a set configuration file cannot be read; and on
a configuration error, main exits without a fatal log precisely when the
error is pflag.ErrHelp, logging fatally otherwise. -/
theorem setupConfiguration_main_spec (env : SetupEnv) (runResult : Option String) :
    ((setupConfiguration env).2 = true ↔
      env.parseResult = none ∧ env.configPath ≠ "") ∧
    (exceptIsError (setupConfiguration env).1 = true ↔
      env.parseResult.isSome = true ∨
        (env.parseResult = none ∧ env.configPath ≠ "" ∧
          env.readResult.isSome = true)) ∧
    (∀ e, (setupConfiguration env).1 = Except.error e →
      ((mainOutcome env runResult = MainOutcome.helpExit ↔ e = ConfigErr.errHelp) ∧
       (e ≠ ConfigErr.errHelp →
         mainOutcome env runResult = MainOutcome.fatalConfig e))) := by
  refine ⟨?_, ?_, ?_⟩
  · cases hp : env.parseResult with
    | some e => simp [setupConfiguration, hp]
    | none =>
      by_cases hc : env.configPath = ""
      · simp [setupConfiguration, hp, hc]
      · cases hr : env.readResult <;> simp [setupConfiguration, hp, hc, hr]
  · cases hp : env.parseResult with
    | some e => simp [setupConfiguration, hp]
    | none =>
      by_cases hc : env.configPath = ""
      · simp [setupConfiguration, hp, hc]
      · cases hr : env.readResult <;> simp [setupConfiguration, hp, hc, hr]
  · intro e he
    unfold mainOutcome
    rw [he]
    by_cases heq : e = ConfigErr.errHelp
    · subst heq
      simp
    · simp [heq]

/-- A configuration environment where flag parsing returns pflag.ErrHelp. -/
def setupEnvHelp : SetupEnv :=
  { parseResult := some ConfigErr.errHelp
    configPath := ""
    readResult := none
    version := false }

/-- Witness for C9 at a concrete input: when flag parsing returns
pflag.ErrHelp, main returns quietly. -/
theorem setupConfiguration_main_spec_witness :
    mainOutcome setupEnvHelp none = MainOutcome.helpExit :=
  (((setupConfiguration_main_spec setupEnvHelp none).2.2
    ConfigErr.errHelp rfl).1).mpr rfl

theorem canonicalTags_perm {l₁ l₂ : List String} (h : List.Perm l₁ l₂) :
    canonicalTags l₁ = canonicalTags l₂ := by
  unfold canonicalTags
  refine List.eq_of_perm_of_sorted ?_
    (List.sorted_insertionSort _ _) (List.sorted_insertionSort _ _)
  exact ((List.perm_insertionSort _ _).trans h.dedup).trans
    (List.perm_insertionSort _ _).symm

/-- Claim C2: two Metrics with equal name, equal kind, and the same
tag-set in any insertion order map to the same MetricIdentity, and the
shard assigned to that identity is the same for any worker count — shard
assignment is a pure deterministic function of the identity. -/
theorem metric_identity_shard_deterministic (m₁ m₂ : Metric) (numWorkers : ℕ)
    (hname : m₁.name = m₂.name) (hkind : m₁.kind = m₂.kind)
    (htags : List.Perm m₁.tags m₂.tags) :
    Metric.identity m₁ = Metric.identity m₂ ∧
    shardOf numWorkers (Metric.identity m₁) =
      shardOf numWorkers (Metric.identity m₂) := by
  have hid : Metric.identity m₁ = Metric.identity m₂ := by
    unfold Metric.identity
    rw [hname, hkind, canonicalTags_perm htags]
  exact ⟨hid, by rw [hid]⟩

/-- A concrete metric with two tags. -/
def metricA : Metric :=
  { name := "foo"
    kind := MetricKind.counter
    tags := ["a:1", "b:2"] }

/-- The same metric as metricA with its tags in the other insertion
order. -/
def metricB : Metric :=
  { name := "foo"
    kind := MetricKind.counter
    tags := ["b:2", "a:1"] }

/-- Witness for C2 at a concrete input: reordering the tag list changes
neither the identity nor the shard. -/
theorem metric_identity_shard_deterministic_witness :
    Metric.identity metricA = Metric.identity metricB ∧
    shardOf 4 (Metric.identity metricA) = shardOf 4 (Metric.identity metricB) :=
  metric_identity_shard_deterministic metricA metricB 4 rfl rfl (by decide)

theorem foldWindow_eq (c : AggregatedCounter) (w : List ℤ) :
    foldWindow c w = { value := c.value + w.sum, total := c.total + w.sum } := by
  induction w generalizing c with
  | nil => cases c; simp [foldWindow]
  | cons a t ih =>
    cases c with
    | mk v tl =>
      simp only [foldWindow, List.foldl_cons, List.sum_cons]
      have := ih (foldIncrement { value := v, total := tl } a)
      unfold foldWindow at this
      rw [this]
      simp [foldIncrement, add_assoc]

theorem runWindows_eq (t : ℤ) (ws : List (List ℤ)) :
    runWindows { value := 0, total := t } ws =
      (ws.map List.sum,
        { value := 0, total := t + (ws.map List.sum).sum }) := by
  induction ws generalizing t with
  | nil => simp [runWindows]
  | cons w rest ih =>
    simp only [runWindows, foldWindow_eq, flushCounter, zero_add, List.map_cons,
      List.sum_cons]
    rw [ih (t + w.sum)]
    simp [add_assoc]

/-- Claim C3: starting from a fresh counter, the delta emitted at each
flush equals the sum of the increments folded in that flush window, and
after any number k of flushes the total-since-start (unchanged by the
reset, hence its pre-reset value) equals the sum of every delta flushed so
far. -/
theorem counter_flush_deltas (ws : List (List ℤ)) :
    (runWindows initialCounter ws).1 = ws.map List.sum ∧
    ∀ k : ℕ, (runWindows initialCounter (ws.take k)).2.total =
      ((runWindows initialCounter (ws.take k)).1).sum := by
  constructor
  · rw [show initialCounter = { value := 0, total := 0 } from rfl, runWindows_eq]
  · intro k
    rw [show initialCounter = { value := 0, total := 0 } from rfl, runWindows_eq]
    simp

/-- Witness for C3 at a concrete input, the spec's scenario: two
increments of 1 in one window flush a delta of 2, which is also the
total. -/
theorem counter_flush_deltas_witness :
    (runWindows initialCounter [[1, 1]]).1 = [2] ∧
    (runWindows initialCounter ([[1, 1]].take 1)).2.total =
      ((runWindows initialCounter ([[1, 1]].take 1)).1).sum := by
  obtain ⟨h1, h2⟩ := counter_flush_deltas [[1, 1]]
  exact ⟨by rw [h1]; decide, h2 1⟩

end Gostatsd
